import Mathlib

/-!
Verification of the Blue Ridge Hot Tubs product-mix repository.

The development shallowly embeds the three source files:

* `lp_model.py` — the `Resources` and `Solution` records and `solve_hot_tubs`,
  which hands the fixed LP (maximise 350 x1 + 300 x2 subject to
  x1 + x2 <= pumps, 9 x1 + 6 x2 <= labor_hours, 12 x1 + 16 x2 <= tubing_feet,
  x1, x2 >= 0) to an external solver (pulp CBC) and post-processes the
  returned values.  The external solver is modelled as an oracle
  `Resources -> SolverOut`, where each returned value is an `Option`
  (pulp returns `None` when there is no incumbent value); the LP itself is
  captured by the predicates `Feasible` and `IsOptimal`.
* `run_analysis.py` — `sensitivity_curve_pumps` / `sensitivity_curve_labor`:
  sweep one resource over an inclusive integer range, collect profits,
  detect the breakpoint by comparing consecutive profit deltas against the
  first delta with absolute tolerance 1e-6, and report the maximal profit.
  Python operations that can raise (`xs[-1]` on an empty list, `max` of an
  empty sequence, `list.index` of an absent value) are modelled as `Option`:
  a `none` result stands for the raised exception.
* `sensitivity.py` — `delta_profit` (which rounds the profit difference to
  two decimal places, Python `round(x, 2)`, i.e. half-even), the
  constant-marginal scans `q1_more_pumps` / `q2_more_labor`, and the
  first-change scan `q3_more_tubing`.

Numbers are exact rationals; Python floats are idealised as `Rat`.
-/

namespace BlueRidge

set_option maxRecDepth 20000

attribute [local semireducible] Rat.add Rat.sub Rat.mul Rat.inv

/-- Absolute tolerance 1e-6 used by every scan in the repository. -/
def tol : ℚ := 1 / 1000000

/-- lp_model.Resources: available quantities of each resource
(defaults pumps=200, labor_hours=1566, tubing_feet=2880). -/
structure Resources where
  pumps : ℚ
  labor_hours : ℚ
  tubing_feet : ℚ
deriving DecidableEq

/-- Resources() with the dataclass defaults. -/
def baselineRes : Resources := ⟨200, 1566, 2880⟩

/-- Resource amounts keyed by the three dictionary keys of lp_model
("pumps", "labor", "tubing"). -/
structure Usage where
  pumps : ℚ
  labor : ℚ
  tubing : ℚ
deriving DecidableEq

/-- lp_model.Solution: results of solving the product-mix LP. -/
structure Solution where
  x_aqua : ℚ
  x_hydro : ℚ
  profit : ℚ
  used : Usage
  slack : Usage
deriving DecidableEq

/-- What the external pulp/CBC call yields back to `solve_hot_tubs`:
`x1.value()`, `x2.value()` and `pulp.value(model.objective)`, each possibly
`None` when the solver produced no value. -/
structure SolverOut where
  x1val : Option ℚ
  x2val : Option ℚ
  objval : Option ℚ
deriving DecidableEq

/-- The external LP-solver collaborator, an oracle from the envelope to the
values pulp reports back. -/
def Oracle : Type := Resources → SolverOut

/-- Objective of the fixed LP built in `solve_hot_tubs`:
`model += 350 * x1 + 300 * x2`. -/
def objectiveFn (x1 x2 : ℚ) : ℚ := 350 * x1 + 300 * x2

/-- Feasibility for the constraints `solve_hot_tubs` hands to the solver:
`x1 + x2 <= res.pumps`, `9 x1 + 6 x2 <= res.labor_hours`,
`12 x1 + 16 x2 <= res.tubing_feet` with both variables bounded below by 0. -/
def Feasible (res : Resources) (x1 x2 : ℚ) : Prop :=
  0 ≤ x1 ∧ 0 ≤ x2 ∧ x1 + x2 ≤ res.pumps ∧
    9 * x1 + 6 * x2 ≤ res.labor_hours ∧ 12 * x1 + 16 * x2 ≤ res.tubing_feet

/-- An exact optimum of the LP `solve_hot_tubs` formulates for `res`. -/
def IsOptimal (res : Resources) (x1 x2 : ℚ) : Prop :=
  Feasible res x1 x2 ∧
    ∀ y1 y2, Feasible res y1 y2 → objectiveFn y1 y2 ≤ objectiveFn x1 x2

/-- lp_model.solve_hot_tubs: formulate the LP, call the solver, clamp missing
values to 0.0 (Python `x1.value() or 0.0`: `None` and `0.0` both give `0.0`),
and compute used resources and slack. -/
def solve_hot_tubs (solver : Oracle) (res : Resources) : Solution :=
  let out := solver res
  let xa := out.x1val.getD 0
  let xh := out.x2val.getD 0
  let profit := out.objval.getD 0
  let used : Usage := ⟨xa + xh, 9 * xa + 6 * xh, 12 * xa + 16 * xh⟩
  let slack : Usage :=
    ⟨res.pumps - used.pumps, res.labor_hours - used.labor,
      res.tubing_feet - used.tubing⟩
  ⟨xa, xh, profit, used, slack⟩

/-- Floor of a rational as an integer (`Int.fdiv` floors the quotient). -/
def qfloor (q : ℚ) : ℤ := Int.fdiv q.num q.den

/-- Round to the nearest integer, ties to even (the rounding Python `round`
performs). -/
def roundHalfEven (m : ℚ) : ℤ :=
  let f := qfloor m
  let r := m - (f : ℚ)
  if r < 1 / 2 then f
  else if 1 / 2 < r then f + 1
  else if f % 2 = 0 then f else f + 1

/-- Python `round(q, 2)`: round to two decimal places, ties to even. -/
def round2 (q : ℚ) : ℚ := (roundHalfEven (q * 100) : ℚ) / 100

/-- sensitivity.delta_profit: the change in profit between successive solves,
rounded to two decimal places. -/
def delta_profit (base_profit new_profit : ℚ) : ℚ :=
  round2 (new_profit - base_profit)

/-- Python `list(range(start, stop + 1))`. -/
def rangeIncl (start stop : ℤ) : List ℤ :=
  (List.range (stop + 1 - start).toNat).map (fun i : ℕ => start + (i : ℤ))

/-- run_analysis: `[profits[i+1] - profits[i] for i in range(len(profits)-1)]`. -/
def consecDeltas (profits : List ℚ) : List ℚ :=
  List.zipWith (fun a b => b - a) profits profits.tail

/-- The scan `for i, d in enumerate(deltas[1:], start=1): if abs(d - first) > 1e-6`
of run_analysis, returning the index of the first deviating delta. -/
def firstDevAux (first : ℚ) : List ℚ → ℕ → Option ℕ
  | [], _ => none
  | d :: rest, i => if tol < |d - first| then some i else firstDevAux first rest (i + 1)

/-- run_analysis breakpoint detection over the delta list: `first = deltas[0]`,
then scan `deltas[1:]` from index 1. `none` when there is no delta at all or
no deviating delta. -/
def firstDevIdx : List ℚ → Option ℕ
  | [] => none
  | first :: rest => firstDevAux first rest 1

/-- Python `max(profits)`; `none` models the `ValueError` on an empty sequence. -/
def maxQ : List ℚ → Option ℚ
  | [] => none
  | x :: xs => some (xs.foldl max x)

/-- Python `profits.index(q)`: index of the first occurrence (the length when
absent, in which case the subsequent indexing fails like the `ValueError`). -/
def indexOfQ (q : ℚ) : List ℚ → ℕ
  | [] => 0
  | x :: xs => if x = q then 0 else indexOfQ q xs + 1

/-- The tuple `(xs, profits, breakpoint_at, max_profit, max_at)` returned by
the two sweep functions of run_analysis. -/
structure CurveResult where
  xs : List ℤ
  profits : List ℚ
  breakpoint_at : ℤ
  max_profit : ℚ
  max_at : ℤ
deriving DecidableEq

/-- Lines 19-37 of run_analysis.py, textually identical to lines 47-63:
breakpoint detection (`bp = xs[i]`, falling back to `xs[-1]`), the highest
profit `max(profits)` and `max_at = xs[profits.index(max_profit)]`.
`none` stands for a raised `IndexError`/`ValueError`. -/
def curveFinish (xs : List ℤ) (profits : List ℚ) : Option CurveResult :=
  let deltas := consecDeltas profits
  let bpOpt : Option ℤ :=
    match firstDevIdx deltas with
    | some i => xs.get? i
    | none => xs.getLast?
  match bpOpt, maxQ profits with
  | some bp, some mp =>
    match xs.get? (indexOfQ mp profits) with
    | some ma => some ⟨xs, profits, bp, mp, ma⟩
    | none => none
  | _, _ => none

/-- run_analysis.sensitivity_curve_pumps (defaults
start=200, stop=220, labor=1566, tubing=2880). -/
def sensitivity_curve_pumps (solver : Oracle) (start stop labor tubing : ℤ) :
    Option CurveResult :=
  let xs := rangeIncl start stop
  let profits := xs.map (fun p : ℤ =>
    (solve_hot_tubs solver ⟨(p : ℚ), (labor : ℚ), (tubing : ℚ)⟩).profit)
  curveFinish xs profits

/-- run_analysis.sensitivity_curve_labor (defaults
start=1566, stop=1820, pumps=200, tubing=2880). -/
def sensitivity_curve_labor (solver : Oracle) (start stop pumps tubing : ℤ) :
    Option CurveResult :=
  let xs := rangeIncl start stop
  let profits := xs.map (fun h : ℤ =>
    (solve_hot_tubs solver ⟨(pumps : ℚ), (h : ℚ), (tubing : ℚ)⟩).profit)
  curveFinish xs profits

/-- The loop body shared verbatim by sensitivity.q1_more_pumps and
q2_more_labor: thread `last_profit`, record the first rounded delta, set
`breakpoint_at` at the first later parameter whose rounded delta deviates
from the first by more than 1e-6 (`breakpoint_at is None` keeps the first
hit), and return `(first_delta, breakpoint_at)`. -/
def marginalScan (profit : ℤ → ℚ) :
    ℚ → ℤ → ℕ → Option ℚ → Option ℤ → Option ℚ × Option ℤ
  | _, _, 0, firstd, bp => (firstd, bp)
  | last, p, n + 1, none, bp =>
    marginalScan profit (profit p) (p + 1) n (some (delta_profit last (profit p))) bp
  | last, p, n + 1, some fd, bp =>
    marginalScan profit (profit p) (p + 1) n (some fd)
      (match bp with
       | none =>
         if tol < |delta_profit last (profit p) - fd| then some p else none
       | some b => some b)

/-- Profit of one pump-sweep solve in sensitivity.q1_more_pumps:
`Resources(pumps=p, labor_hours=base_res.labor_hours, tubing_feet=base_res.tubing_feet)`. -/
def pumpProfit (solver : Oracle) (p : ℤ) : ℚ :=
  (solve_hot_tubs solver
    ⟨(p : ℚ), baselineRes.labor_hours, baselineRes.tubing_feet⟩).profit

/-- sensitivity.q1_more_pumps (default max_test=220), reduced to its computed
values: the loop runs `p` over `range(base_res.pumps + 1, max_test + 1)` with
baseline pumps 200, starting from the baseline profit. -/
def q1_more_pumps (solver : Oracle) (max_test : ℤ) : Option ℚ × Option ℤ :=
  let base_profit := (solve_hot_tubs solver baselineRes).profit
  marginalScan (pumpProfit solver) base_profit 201 (max_test - 200).toNat none none

/-- Profit of one labour-sweep solve in sensitivity.q2_more_labor. -/
def laborProfit (solver : Oracle) (h : ℤ) : ℚ :=
  (solve_hot_tubs solver
    ⟨baselineRes.pumps, (h : ℚ), baselineRes.tubing_feet⟩).profit

/-- sensitivity.q2_more_labor (default max_test=1800): the loop runs `h` over
`range(base_res.labor_hours + 1, max_test + 1)` with baseline hours 1566. -/
def q2_more_labor (solver : Oracle) (max_test : ℤ) : Option ℚ × Option ℤ :=
  let base_profit := (solve_hot_tubs solver baselineRes).profit
  marginalScan (laborProfit solver) base_profit 1567 (max_test - 1566).toNat none none

/-- The loop of sensitivity.q3_more_tubing: at each tested value the rounded
delta from the previous solve is compared against 1e-6; the first deviation
is returned at once (the Python `return` inside the loop), otherwise the scan
continues with the updated `last_profit`. -/
def firstChangeScan (profit : ℤ → ℚ) : ℚ → ℤ → ℕ → Option ℤ
  | _, _, 0 => none
  | last, t, n + 1 =>
    let d := delta_profit last (profit t)
    if tol < |d| then some t
    else firstChangeScan profit (profit t) (t + 1) n

/-- Profit of one tubing-sweep solve in sensitivity.q3_more_tubing. -/
def tubingProfit (solver : Oracle) (t : ℤ) : ℚ :=
  (solve_hot_tubs solver
    ⟨baselineRes.pumps, baselineRes.labor_hours, (t : ℚ)⟩).profit

/-- sensitivity.q3_more_tubing (default increment=50): scan `t` over
`range(base_res.tubing_feet + 1, base_res.tubing_feet + increment + 1)` with
baseline tubing 2880; `some t` is the reported binding value, `none` the
"tubing is non-binding in this tested region" outcome. -/
def q3_more_tubing (solver : Oracle) (increment : ℤ) : Option ℤ :=
  let base_profit := (solve_hot_tubs solver baselineRes).profit
  firstChangeScan (tubingProfit solver) base_profit 2881 increment.toNat

/-- The rounded delta `delta_profit(profit(p-1), profit(p))` of the pump sweep. -/
def pumpDelta (solver : Oracle) (p : ℤ) : ℚ :=
  delta_profit (pumpProfit solver (p - 1)) (pumpProfit solver p)

/-- The rounded delta of the labour sweep. -/
def laborDelta (solver : Oracle) (h : ℤ) : ℚ :=
  delta_profit (laborProfit solver (h - 1)) (laborProfit solver h)

/-- The rounded delta of the tubing sweep. -/
def tubingDelta (solver : Oracle) (t : ℤ) : ℚ :=
  delta_profit (tubingProfit solver (t - 1)) (tubingProfit solver t)

/-- The raw (unrounded) profit delta of the pump sweep: the difference of
the exact profits at `p` and `p - 1` pumps. -/
def rawPumpDelta (solver : Oracle) (p : ℤ) : ℚ :=
  pumpProfit solver p - pumpProfit solver (p - 1)

/-- Delta index `i` deviates from the first delta by more than the tolerance. -/
def devAt (ds : List ℚ) (i : ℕ) : Prop := tol < |ds.getD i 0 - ds.getD 0 0|

/-- The specification of the breakpoint reported for a sweep series: `xs` at
the smallest delta index `i >= 1` whose delta deviates from `delta[0]` by
more than 1e-6, and the last tested parameter value when no index deviates. -/
def BreakpointSpec (xs : List ℤ) (profits : List ℚ) (bp : ℤ) : Prop :=
  (∃ i, 1 ≤ i ∧ i < (consecDeltas profits).length ∧ devAt (consecDeltas profits) i ∧
      (∀ j, 1 ≤ j → j < i → ¬ devAt (consecDeltas profits) j) ∧ bp = xs.getD i 0) ∨
    ((∀ j, 1 ≤ j → j < (consecDeltas profits).length → ¬ devAt (consecDeltas profits) j) ∧
      bp = xs.getD (xs.length - 1) 0)

/-- The specification of the reported maximum: `mp` is the maximum of the
collected profits and `ma` the parameter value at its first occurrence. -/
def MaxSpec (xs : List ℤ) (profits : List ℚ) (mp : ℚ) (ma : ℤ) : Prop :=
  mp ∈ profits ∧ (∀ q ∈ profits, q ≤ mp) ∧
    ∃ j, j < profits.length ∧ profits.getD j 0 = mp ∧
      (∀ k, k < j → profits.getD k 0 ≠ mp) ∧ ma = xs.getD j 0

/-- A solver oracle reporting a zero plan for every envelope. -/
def zeroOracle : Oracle := fun _ => ⟨some 0, some 0, some 0⟩

/-- A failed solve: the solver returns no variable values and no objective
value at all (pulp yields `None` for each). -/
def failOracle : Oracle := fun _ => ⟨none, none, none⟩

/-- The exact optimum of the baseline LP, returned for every envelope
(queried only at the baseline). -/
def optOracle : Oracle := fun _ => ⟨some 122, some 78, some 66100⟩

/-- Exact optima for the baseline envelope and for the envelope with one more
pump (201 pumps: plan (120, 81), profit 66300). -/
def monoOracle : Oracle := fun res =>
  if res.pumps = 201 then ⟨some 120, some 81, some 66300⟩
  else ⟨some 122, some 78, some 66100⟩

/-- Profit curve whose marginal value changes after one step: profit 0 at 200
pumps, 1 at 201 pumps, then 3 more per pump. The deltas are 1, 3, 3, ... so
the first deviating delta index is 1. -/
def cexPumps : Oracle := fun res =>
  ⟨some 0, some 0,
    some (if res.pumps ≤ 201 then res.pumps - 200 else 3 * (res.pumps - 201) + 1)⟩

/-- Profit jumps by 1/250 = 0.004 at 2881 feet of tubing and is constant
after: the raw delta at 2881 exceeds 1e-6 but rounds to 0.00. -/
def cexTubing : Oracle := fun res =>
  ⟨some 0, some 0, some (if (2881 : ℚ) ≤ res.tubing_feet then 1 / 250 else 0)⟩

/-! ### Helper lemmas about the list operations -/

theorem rangeIncl_length (start stop : ℤ) :
    (rangeIncl start stop).length = (stop + 1 - start).toNat := by
  rw [rangeIncl, List.length_map, List.length_range]

theorem rangeIncl_get? (start stop : ℤ) (i : ℕ) (h : i < (stop + 1 - start).toNat) :
    (rangeIncl start stop).get? i = some (start + (i : ℤ)) := by
  rw [rangeIncl, List.get?_map, List.get?_range h, Option.map_some']

theorem rangeIncl_eq_nil_iff (start stop : ℤ) :
    rangeIncl start stop = [] ↔ stop < start := by
  constructor
  · intro h
    have h2 := rangeIncl_length start stop
    rw [h] at h2
    simp only [List.length_nil] at h2
    omega
  · intro h
    have h2 : (stop + 1 - start).toNat = 0 := by omega
    simp [rangeIncl, h2]

theorem rangeIncl_getLast? (start stop : ℤ) (h : start ≤ stop) :
    (rangeIncl start stop).getLast? = some stop := by
  rw [List.getLast?_eq_get?, rangeIncl_length]
  have h1 : (stop + 1 - start).toNat - 1 < (stop + 1 - start).toNat := by omega
  rw [rangeIncl_get? start stop _ h1]
  congr 1
  omega

theorem consecDeltas_length (l : List ℚ) :
    (consecDeltas l).length = l.length - 1 := by
  cases l with
  | nil => rfl
  | cons a t => simp [consecDeltas, List.length_zipWith]

theorem consecDeltas_get? (l : List ℚ) (i : ℕ) (h : i + 1 < l.length) :
    (consecDeltas l).get? i = some (l.getD (i + 1) 0 - l.getD i 0) := by
  induction l generalizing i with
  | nil => simp at h
  | cons a t ih =>
    cases t with
    | nil => simp only [List.length_cons, List.length_nil] at h; omega
    | cons b ts =>
      cases i with
      | zero => rfl
      | succ j =>
        have h2 : j + 1 < (b :: ts).length := by
          simp only [List.length_cons] at h ⊢
          omega
        have step : consecDeltas (a :: b :: ts) = (b - a) :: consecDeltas (b :: ts) := rfl
        rw [step, List.get?_cons_succ, ih j h2]
        simp [List.getD_cons_succ]

theorem firstDevAux_eq_some_iff (first : ℚ) (ds : List ℚ) (i0 j : ℕ) :
    firstDevAux first ds i0 = some j ↔
      ∃ k, k < ds.length ∧ j = i0 + k ∧ tol < |ds.getD k 0 - first| ∧
        ∀ m, m < k → |ds.getD m 0 - first| ≤ tol := by
  induction ds generalizing i0 with
  | nil => simp [firstDevAux]
  | cons d rest ih =>
    by_cases hd : tol < |d - first|
    · simp only [firstDevAux, if_pos hd, Option.some_inj]
      constructor
      · rintro rfl
        exact ⟨0, by simp, by omega, by simpa using hd, fun m hm => absurd hm (by omega)⟩
      · rintro ⟨k, hk, rfl, hdev, hmin⟩
        rcases Nat.eq_zero_or_pos k with rfl | hk0
        · rfl
        · exact absurd hd (not_lt.mpr (by simpa using hmin 0 hk0))
    · simp only [firstDevAux, if_neg hd]
      rw [ih (i0 + 1)]
      constructor
      · rintro ⟨k, hk, rfl, hdev, hmin⟩
        refine ⟨k + 1, by simpa using hk, by omega, by simpa using hdev, ?_⟩
        intro m hm
        cases m with
        | zero => simpa using not_lt.mp hd
        | succ m2 => simpa using hmin m2 (by omega)
      · rintro ⟨k, hk, rfl, hdev, hmin⟩
        cases k with
        | zero => exact absurd (by simpa using hdev) hd
        | succ k2 =>
          refine ⟨k2, by simpa using hk, by omega, by simpa using hdev, ?_⟩
          intro m hm
          simpa using hmin (m + 1) (by omega)

theorem firstDevAux_eq_none_iff (first : ℚ) (ds : List ℚ) (i0 : ℕ) :
    firstDevAux first ds i0 = none ↔
      ∀ k, k < ds.length → |ds.getD k 0 - first| ≤ tol := by
  induction ds generalizing i0 with
  | nil => simp [firstDevAux]
  | cons d rest ih =>
    by_cases hd : tol < |d - first|
    · simp only [firstDevAux, if_pos hd]
      constructor
      · intro h
        simp at h
      · intro h
        exact absurd hd (not_lt.mpr (by simpa using h 0 (by simp)))
    · simp only [firstDevAux, if_neg hd]
      rw [ih (i0 + 1)]
      constructor
      · intro h k hk
        cases k with
        | zero => simpa using not_lt.mp hd
        | succ k2 => simpa using h k2 (by simpa using hk)
      · intro h k hk
        simpa using h (k + 1) (by simpa using hk)

theorem devAt_cons (d : ℚ) (rest : List ℚ) (k : ℕ) :
    devAt (d :: rest) (k + 1) ↔ tol < |rest.getD k 0 - d| := by
  simp [devAt]

theorem firstDevIdx_eq_some_iff (ds : List ℚ) (i : ℕ) :
    firstDevIdx ds = some i ↔
      1 ≤ i ∧ i < ds.length ∧ devAt ds i ∧ ∀ j, 1 ≤ j → j < i → ¬ devAt ds j := by
  cases ds with
  | nil =>
    simp only [firstDevIdx, List.length_nil]
    constructor
    · intro h; simp at h
    · rintro ⟨_, h, _⟩; omega
  | cons d rest =>
    rw [show firstDevIdx (d :: rest) = firstDevAux d rest 1 from rfl,
      firstDevAux_eq_some_iff]
    constructor
    · rintro ⟨k, hk, rfl, hdev, hmin⟩
      refine ⟨by omega, by simp only [List.length_cons]; omega, ?_, ?_⟩
      · have h1 : 1 + k = k + 1 := by omega
        rw [h1, devAt_cons]
        simpa using hdev
      · intro j h1 hj
        obtain ⟨m, rfl⟩ : ∃ m, j = m + 1 := ⟨j - 1, by omega⟩
        rw [devAt_cons]
        exact not_lt.mpr (by simpa using hmin m (by omega))
    · rintro ⟨h1, hlen, hdev, hmin⟩
      obtain ⟨m, rfl⟩ : ∃ m, i = m + 1 := ⟨i - 1, by omega⟩
      rw [devAt_cons] at hdev
      refine ⟨m, by simp only [List.length_cons] at hlen; omega, by omega, by simpa using hdev, ?_⟩
      intro m2 hm2
      have h2 := hmin (m2 + 1) (by omega) (by omega)
      rw [devAt_cons] at h2
      simpa using not_lt.mp h2

theorem firstDevIdx_eq_none_iff (ds : List ℚ) :
    firstDevIdx ds = none ↔ ∀ j, 1 ≤ j → j < ds.length → ¬ devAt ds j := by
  cases ds with
  | nil =>
    simp [firstDevIdx]
  | cons d rest =>
    rw [show firstDevIdx (d :: rest) = firstDevAux d rest 1 from rfl,
      firstDevAux_eq_none_iff]
    constructor
    · intro h j h1 hj
      obtain ⟨m, rfl⟩ : ∃ m, j = m + 1 := ⟨j - 1, by omega⟩
      rw [devAt_cons]
      exact not_lt.mpr (by simpa using h m (by simp only [List.length_cons] at hj; omega))
    · intro h k hk
      have h2 := h (k + 1) (by omega) (by simp only [List.length_cons]; omega)
      rw [devAt_cons] at h2
      simpa using not_lt.mp h2

theorem le_foldl_max (l : List ℚ) (a : ℚ) : a ≤ l.foldl max a := by
  induction l generalizing a with
  | nil => simp
  | cons x xs ih =>
    rw [List.foldl_cons]
    exact le_trans (le_max_left a x) (ih (max a x))

theorem mem_le_foldl_max (l : List ℚ) (a : ℚ) : ∀ x ∈ l, x ≤ l.foldl max a := by
  induction l generalizing a with
  | nil => intro x hx; cases hx
  | cons y ys ih =>
    intro x hx
    rw [List.foldl_cons]
    rcases List.mem_cons.mp hx with rfl | h
    · exact le_trans (le_max_right a x) (le_foldl_max ys (max a x))
    · exact ih (max a y) x h

theorem foldl_max_mem (l : List ℚ) (a : ℚ) : l.foldl max a = a ∨ l.foldl max a ∈ l := by
  induction l generalizing a with
  | nil => left; rfl
  | cons y ys ih =>
    rw [List.foldl_cons]
    rcases ih (max a y) with h | h
    · rcases max_cases a y with ⟨h2, _⟩ | ⟨h2, _⟩
      · left; rw [h, h2]
      · right; rw [h, h2]; exact List.mem_cons_self y ys
    · right; exact List.mem_cons_of_mem y h

theorem maxQ_spec (l : List ℚ) (m : ℚ) (h : maxQ l = some m) :
    m ∈ l ∧ ∀ x ∈ l, x ≤ m := by
  cases l with
  | nil => simp [maxQ] at h
  | cons x xs =>
    simp only [maxQ, Option.some_inj] at h
    subst h
    constructor
    · rcases foldl_max_mem xs x with h | h
      · rw [h]; exact List.mem_cons_self x xs
      · exact List.mem_cons_of_mem x h
    · intro y hy
      rcases List.mem_cons.mp hy with rfl | hy
      · exact le_foldl_max xs y
      · exact mem_le_foldl_max xs x y hy

theorem indexOfQ_spec (q : ℚ) (l : List ℚ) (h : q ∈ l) :
    indexOfQ q l < l.length ∧ l.getD (indexOfQ q l) 0 = q ∧
      ∀ k, k < indexOfQ q l → l.getD k 0 ≠ q := by
  induction l with
  | nil => cases h
  | cons x xs ih =>
    by_cases hx : x = q
    · subst hx
      simp [indexOfQ]
    · have hq : q ∈ xs := by
        rcases List.mem_cons.mp h with rfl | h2
        · exact absurd rfl hx
        · exact h2
      obtain ⟨h1, h2, h3⟩ := ih hq
      refine ⟨?_, ?_, ?_⟩
      · simp only [indexOfQ, if_neg hx, List.length_cons]; omega
      · simp only [indexOfQ, if_neg hx, List.getD_cons_succ]; exact h2
      · intro k hk
        simp only [indexOfQ, if_neg hx] at hk
        cases k with
        | zero => simpa using hx
        | succ k2 =>
          simp only [List.getD_cons_succ]
          exact h3 k2 (by omega)

/-! ### Lemmas about the post-processing shared by the two sweep functions -/

theorem curveFinish_inv (xs : List ℤ) (profits : List ℚ) (r : CurveResult)
    (h : curveFinish xs profits = some r) :
    r.xs = xs ∧ r.profits = profits ∧
      maxQ profits = some r.max_profit ∧
      xs.get? (indexOfQ r.max_profit profits) = some r.max_at ∧
      ((∃ i, firstDevIdx (consecDeltas profits) = some i ∧ xs.get? i = some r.breakpoint_at) ∨
        (firstDevIdx (consecDeltas profits) = none ∧ xs.getLast? = some r.breakpoint_at)) := by
  unfold curveFinish at h
  rcases hfd : firstDevIdx (consecDeltas profits) with _ | i
  · rcases hlast : xs.getLast? with _ | bp
    · simp only [hfd, hlast] at h
      exact Option.noConfusion h
    · rcases hmax : maxQ profits with _ | mp
      · simp only [hfd, hlast, hmax] at h
        exact Option.noConfusion h
      · rcases hget : xs.get? (indexOfQ mp profits) with _ | ma
        · simp only [hfd, hlast, hmax, hget] at h
          exact Option.noConfusion h
        · simp only [hfd, hlast, hmax, hget, Option.some_inj] at h
          subst h
          exact ⟨rfl, rfl, rfl, hget, Or.inr ⟨rfl, rfl⟩⟩
  · rcases hbp : xs.get? i with _ | bp
    · simp only [hfd, hbp] at h
      exact Option.noConfusion h
    · rcases hmax : maxQ profits with _ | mp
      · simp only [hfd, hbp, hmax] at h
        exact Option.noConfusion h
      · rcases hget : xs.get? (indexOfQ mp profits) with _ | ma
        · simp only [hfd, hbp, hmax, hget] at h
          exact Option.noConfusion h
        · simp only [hfd, hbp, hmax, hget, Option.some_inj] at h
          subst h
          exact ⟨rfl, rfl, rfl, hget, Or.inl ⟨i, rfl, hbp⟩⟩

theorem curveFinish_isSome (xs : List ℤ) (profits : List ℚ)
    (hlen : xs.length = profits.length) (hne : xs ≠ []) :
    ∃ r, curveFinish xs profits = some r := by
  have hplen : profits ≠ [] := by
    intro h2
    subst h2
    simp only [List.length_nil] at hlen
    exact hne (List.length_eq_zero.mp hlen)
  obtain ⟨mp, hmax⟩ : ∃ mp, maxQ profits = some mp := by
    cases profits with
    | nil => exact absurd rfl hplen
    | cons x l => exact ⟨_, rfl⟩
  obtain ⟨hmem, _⟩ := maxQ_spec profits mp hmax
  obtain ⟨hidx, _, _⟩ := indexOfQ_spec mp profits hmem
  have hidx2 : indexOfQ mp profits < xs.length := by omega
  obtain ⟨ma, hget⟩ : ∃ ma, xs.get? (indexOfQ mp profits) = some ma :=
    ⟨_, List.get?_eq_get hidx2⟩
  unfold curveFinish
  rcases hfd : firstDevIdx (consecDeltas profits) with _ | i
  · obtain ⟨bp, hlast⟩ : ∃ bp, xs.getLast? = some bp :=
      Option.isSome_iff_exists.mp (List.getLast?_isSome.mpr hne)
    refine ⟨⟨xs, profits, bp, mp, ma⟩, ?_⟩
    simp only [hfd, hlast, hmax, hget]
  · have hi : i < xs.length := by
      obtain ⟨_, h2, _, _⟩ := (firstDevIdx_eq_some_iff _ _).mp hfd
      have h3 := consecDeltas_length profits
      omega
    obtain ⟨bp, hbp⟩ : ∃ bp, xs.get? i = some bp := ⟨_, List.get?_eq_get hi⟩
    refine ⟨⟨xs, profits, bp, mp, ma⟩, ?_⟩
    simp only [hfd, hbp, hmax, hget]

theorem curveFinish_breakpointSpec (xs : List ℤ) (profits : List ℚ) (r : CurveResult)
    (h : curveFinish xs profits = some r) :
    BreakpointSpec xs profits r.breakpoint_at := by
  obtain ⟨_, _, _, _, hbp⟩ := curveFinish_inv xs profits r h
  rcases hbp with ⟨i, hfd, hget⟩ | ⟨hfd, hlast⟩
  · obtain ⟨h1, h2, h3, h4⟩ := (firstDevIdx_eq_some_iff _ _).mp hfd
    left
    refine ⟨i, h1, h2, h3, h4, ?_⟩
    rw [List.getD_eq_get?, hget]
    rfl
  · right
    refine ⟨(firstDevIdx_eq_none_iff _).mp hfd, ?_⟩
    rw [List.getD_eq_get?, ← List.getLast?_eq_get?, hlast]
    rfl

theorem curveFinish_maxSpec (xs : List ℤ) (profits : List ℚ) (r : CurveResult)
    (h : curveFinish xs profits = some r) :
    MaxSpec xs profits r.max_profit r.max_at := by
  obtain ⟨_, _, hmax, hget, _⟩ := curveFinish_inv xs profits r h
  obtain ⟨hmem, hub⟩ := maxQ_spec profits r.max_profit hmax
  obtain ⟨h1, h2, h3⟩ := indexOfQ_spec r.max_profit profits hmem
  exact ⟨hmem, hub, indexOfQ r.max_profit profits, h1, h2, h3,
    by rw [List.getD_eq_get?, hget]; rfl⟩

theorem sensitivity_curve_pumps_def (solver : Oracle) (start stop labor tubing : ℤ) :
    sensitivity_curve_pumps solver start stop labor tubing =
      curveFinish (rangeIncl start stop)
        ((rangeIncl start stop).map (fun p : ℤ =>
          (solve_hot_tubs solver ⟨(p : ℚ), (labor : ℚ), (tubing : ℚ)⟩).profit)) := rfl

theorem sensitivity_curve_labor_def (solver : Oracle) (start stop pumps tubing : ℤ) :
    sensitivity_curve_labor solver start stop pumps tubing =
      curveFinish (rangeIncl start stop)
        ((rangeIncl start stop).map (fun h : ℤ =>
          (solve_hot_tubs solver ⟨(pumps : ℚ), (h : ℚ), (tubing : ℚ)⟩).profit)) := rfl

/-- C1: for every sweep series with at least two points, the breakpoint
returned by sensitivity_curve_pumps and sensitivity_curve_labor equals
`xs[i]` for the smallest delta index `i >= 1` with
`|delta[i] - delta[0]| > 1e-6`, and equals the last tested parameter value
`xs[-1]` when no such index exists. -/
theorem c1_breakpoint_rule (solver : Oracle) (start stop fix1 fix2 : ℤ)
    (hlt : start < stop) (rp rl : CurveResult)
    (hp : sensitivity_curve_pumps solver start stop fix1 fix2 = some rp)
    (hl : sensitivity_curve_labor solver start stop fix1 fix2 = some rl) :
    BreakpointSpec rp.xs rp.profits rp.breakpoint_at ∧
      BreakpointSpec rl.xs rl.profits rl.breakpoint_at := by
  rw [sensitivity_curve_pumps_def] at hp
  rw [sensitivity_curve_labor_def] at hl
  obtain ⟨e1, e2, _, _, _⟩ := curveFinish_inv _ _ _ hp
  obtain ⟨f1, f2, _, _, _⟩ := curveFinish_inv _ _ _ hl
  constructor
  · rw [e1, e2]
    exact curveFinish_breakpointSpec _ _ _ hp
  · rw [f1, f2]
    exact curveFinish_breakpointSpec _ _ _ hl

/-- Witness for C1 at the constant-zero solver over the sweep 200..202. -/
theorem c1_breakpoint_rule_w :
    BreakpointSpec [200, 201, 202] [0, 0, 0] 202 ∧
      BreakpointSpec [200, 201, 202] [0, 0, 0] 202 :=
  c1_breakpoint_rule zeroOracle 200 202 1566 2880 (by norm_num)
    ⟨[200, 201, 202], [0, 0, 0], 202, 0, 200⟩
    ⟨[200, 201, 202], [0, 0, 0], 202, 0, 200⟩
    (by decide) (by decide)

/-- C9: for every non-empty sweep, both sweep functions report
`max_profit = max(profits)` and `max_at` the parameter value of its first
occurrence. -/
theorem c9_max_rule (solver : Oracle) (start stop fix1 fix2 : ℤ)
    (hle : start ≤ stop) (rp rl : CurveResult)
    (hp : sensitivity_curve_pumps solver start stop fix1 fix2 = some rp)
    (hl : sensitivity_curve_labor solver start stop fix1 fix2 = some rl) :
    MaxSpec rp.xs rp.profits rp.max_profit rp.max_at ∧
      MaxSpec rl.xs rl.profits rl.max_profit rl.max_at := by
  rw [sensitivity_curve_pumps_def] at hp
  rw [sensitivity_curve_labor_def] at hl
  obtain ⟨e1, e2, _, _, _⟩ := curveFinish_inv _ _ _ hp
  obtain ⟨f1, f2, _, _, _⟩ := curveFinish_inv _ _ _ hl
  constructor
  · rw [e1, e2]
    exact curveFinish_maxSpec _ _ _ hp
  · rw [f1, f2]
    exact curveFinish_maxSpec _ _ _ hl

/-- Witness for C9 at the constant-zero solver over the sweep 200..202. -/
theorem c9_max_rule_w :
    MaxSpec [200, 201, 202] [0, 0, 0] 0 200 ∧
      MaxSpec [200, 201, 202] [0, 0, 0] 0 200 :=
  c9_max_rule zeroOracle 200 202 1566 2880 (by norm_num)
    ⟨[200, 201, 202], [0, 0, 0], 202, 0, 200⟩
    ⟨[200, 201, 202], [0, 0, 0], 202, 0, 200⟩
    (by decide) (by decide)

/-- C10: both sweep functions return a complete result exactly when
`start <= stop`; on an empty range (`start > stop`) the indexing `xs[-1]`
and the empty-sequence `max` fail (modelled as `none`) rather than
returning a result. -/
theorem c10_range_behavior (solver : Oracle) (start stop fix1 fix2 : ℤ) :
    (start ≤ stop →
      (sensitivity_curve_pumps solver start stop fix1 fix2).isSome = true ∧
        (sensitivity_curve_labor solver start stop fix1 fix2).isSome = true) ∧
    (stop < start →
      sensitivity_curve_pumps solver start stop fix1 fix2 = none ∧
        sensitivity_curve_labor solver start stop fix1 fix2 = none) := by
  constructor
  · intro hle
    have hne : rangeIncl start stop ≠ [] := by
      rw [ne_eq, rangeIncl_eq_nil_iff]
      omega
    constructor
    · rw [sensitivity_curve_pumps_def]
      obtain ⟨r, hr⟩ := curveFinish_isSome (rangeIncl start stop)
        ((rangeIncl start stop).map (fun p : ℤ =>
          (solve_hot_tubs solver ⟨(p : ℚ), (fix1 : ℚ), (fix2 : ℚ)⟩).profit))
        (by rw [List.length_map]) hne
      rw [hr]
      rfl
    · rw [sensitivity_curve_labor_def]
      obtain ⟨r, hr⟩ := curveFinish_isSome (rangeIncl start stop)
        ((rangeIncl start stop).map (fun h : ℤ =>
          (solve_hot_tubs solver ⟨(fix1 : ℚ), (h : ℚ), (fix2 : ℚ)⟩).profit))
        (by rw [List.length_map]) hne
      rw [hr]
      rfl
  · intro hgt
    have hnil : rangeIncl start stop = [] := (rangeIncl_eq_nil_iff _ _).mpr hgt
    constructor
    · rw [sensitivity_curve_pumps_def, hnil]
      rfl
    · rw [sensitivity_curve_labor_def, hnil]
      rfl

/-! ### Lemmas about the scans of sensitivity.py -/

theorem pumpProfit_base (solver : Oracle) :
    pumpProfit solver 200 = (solve_hot_tubs solver baselineRes).profit := by
  have h : (⟨((200 : ℤ) : ℚ), baselineRes.labor_hours, baselineRes.tubing_feet⟩ : Resources)
      = baselineRes := by
    show (⟨((200 : ℤ) : ℚ), 1566, 2880⟩ : Resources) = ⟨200, 1566, 2880⟩
    norm_num
  rw [pumpProfit, h]

theorem laborProfit_base (solver : Oracle) :
    laborProfit solver 1566 = (solve_hot_tubs solver baselineRes).profit := by
  have h : (⟨baselineRes.pumps, ((1566 : ℤ) : ℚ), baselineRes.tubing_feet⟩ : Resources)
      = baselineRes := by
    show (⟨200, ((1566 : ℤ) : ℚ), 2880⟩ : Resources) = ⟨200, 1566, 2880⟩
    norm_num
  rw [laborProfit, h]

theorem tubingProfit_base (solver : Oracle) :
    tubingProfit solver 2880 = (solve_hot_tubs solver baselineRes).profit := by
  have h : (⟨baselineRes.pumps, baselineRes.labor_hours, ((2880 : ℤ) : ℚ)⟩ : Resources)
      = baselineRes := by
    show (⟨200, 1566, ((2880 : ℤ) : ℚ)⟩ : Resources) = ⟨200, 1566, 2880⟩
    norm_num
  rw [tubingProfit, h]

theorem firstChangeScan_eq_some_iff (profit : ℤ → ℚ) (last : ℚ) (t0 : ℤ) (n : ℕ) (t2 : ℤ)
    (hlast : last = profit (t0 - 1)) :
    firstChangeScan profit last t0 n = some t2 ↔
      t0 ≤ t2 ∧ t2 < t0 + n ∧ tol < |delta_profit (profit (t2 - 1)) (profit t2)| ∧
        ∀ s, t0 ≤ s → s < t2 → |delta_profit (profit (s - 1)) (profit s)| ≤ tol := by
  induction n generalizing last t0 with
  | zero =>
    subst hlast
    simp only [firstChangeScan]
    constructor
    · intro h
      exact absurd h (by simp)
    · rintro ⟨h1, h2, _⟩
      omega
  | succ n ih =>
    subst hlast
    simp only [firstChangeScan]
    by_cases hd : tol < |delta_profit (profit (t0 - 1)) (profit t0)|
    · rw [if_pos hd]
      constructor
      · intro h
        have ht : t0 = t2 := Option.some_inj.mp h
        subst ht
        exact ⟨le_refl _, by omega, hd, fun s hs1 hs2 => absurd hs2 (not_lt.mpr hs1)⟩
      · rintro ⟨h1, h2, hdev, hmin⟩
        have ht : t2 = t0 := by
          by_contra hne
          exact absurd hd
            (not_lt.mpr (hmin t0 (le_refl _) (lt_of_le_of_ne h1 (fun he => hne he.symm))))
        rw [ht]
    · rw [if_neg hd]
      rw [ih (profit t0) (t0 + 1) (by rw [show t0 + 1 - 1 = t0 from by omega])]
      constructor
      · rintro ⟨h1, h2, hdev, hmin⟩
        refine ⟨by omega, by omega, hdev, ?_⟩
        intro s hs1 hs2
        rcases eq_or_lt_of_le hs1 with rfl | hs1b
        · exact not_lt.mp hd
        · exact hmin s (by omega) hs2
      · rintro ⟨h1, h2, hdev, hmin⟩
        have hne : t0 ≠ t2 := by
          rintro rfl
          exact absurd hdev hd
        exact ⟨by omega, by omega, hdev, fun s hs1 hs2 => hmin s (by omega) hs2⟩

theorem firstChangeScan_eq_none_iff (profit : ℤ → ℚ) (last : ℚ) (t0 : ℤ) (n : ℕ)
    (hlast : last = profit (t0 - 1)) :
    firstChangeScan profit last t0 n = none ↔
      ∀ s, t0 ≤ s → s < t0 + n → |delta_profit (profit (s - 1)) (profit s)| ≤ tol := by
  induction n generalizing last t0 with
  | zero =>
    subst hlast
    simp only [firstChangeScan]
    constructor
    · intro _ s hs1 hs2
      exact absurd hs2 (by omega)
    · intro _
      trivial
  | succ n ih =>
    subst hlast
    simp only [firstChangeScan]
    by_cases hd : tol < |delta_profit (profit (t0 - 1)) (profit t0)|
    · rw [if_pos hd]
      constructor
      · intro h
        exact Option.noConfusion h
      · intro h
        exact absurd hd (not_lt.mpr (h t0 (le_refl _) (by omega)))
    · rw [if_neg hd]
      rw [ih (profit t0) (t0 + 1) (by rw [show t0 + 1 - 1 = t0 from by omega])]
      constructor
      · intro h s hs1 hs2
        rcases eq_or_lt_of_le hs1 with rfl | hs1b
        · exact not_lt.mp hd
        · exact h s (by omega) (by omega)
      · intro h s hs1 hs2
        exact h s (by omega) (by omega)

theorem q3_more_tubing_def (solver : Oracle) (increment : ℤ) :
    q3_more_tubing solver increment =
      firstChangeScan (tubingProfit solver)
        ((solve_hot_tubs solver baselineRes).profit) 2881 increment.toNat := rfl

theorem marginalScan_bp_some (profit : ℤ → ℚ) (last : ℚ) (p : ℤ) (n : ℕ)
    (firstd : Option ℚ) (b : ℤ) :
    (marginalScan profit last p n firstd (some b)).2 = some b := by
  induction n generalizing last p firstd with
  | zero => rfl
  | succ n ih =>
    cases firstd with
    | none =>
      simp only [marginalScan]
      exact ih (profit p) (p + 1) (some (delta_profit last (profit p)))
    | some fd =>
      simp only [marginalScan]
      exact ih (profit p) (p + 1) (some fd)

theorem marginalScan_some_iff (profit : ℤ → ℚ) (last fd : ℚ) (t0 : ℤ) (n : ℕ) (b : ℤ)
    (hlast : last = profit (t0 - 1)) :
    (marginalScan profit last t0 n (some fd) none).2 = some b ↔
      t0 ≤ b ∧ b < t0 + n ∧ tol < |delta_profit (profit (b - 1)) (profit b) - fd| ∧
        ∀ s, t0 ≤ s → s < b → |delta_profit (profit (s - 1)) (profit s) - fd| ≤ tol := by
  induction n generalizing last t0 with
  | zero =>
    subst hlast
    simp only [marginalScan]
    constructor
    · intro h
      exact absurd h (by simp)
    · rintro ⟨h1, h2, _⟩
      omega
  | succ n ih =>
    subst hlast
    simp only [marginalScan]
    by_cases hd : tol < |delta_profit (profit (t0 - 1)) (profit t0) - fd|
    · rw [if_pos hd, marginalScan_bp_some]
      constructor
      · intro h
        have ht : t0 = b := Option.some_inj.mp h
        subst ht
        exact ⟨le_refl _, by omega, hd, fun s hs1 hs2 => absurd hs2 (not_lt.mpr hs1)⟩
      · rintro ⟨h1, h2, hdev, hmin⟩
        have ht : b = t0 := by
          by_contra hne
          exact absurd hd
            (not_lt.mpr (hmin t0 (le_refl _) (lt_of_le_of_ne h1 (fun he => hne he.symm))))
        rw [ht]
    · rw [if_neg hd]
      rw [ih (profit t0) (t0 + 1) (by rw [show t0 + 1 - 1 = t0 from by omega])]
      constructor
      · rintro ⟨h1, h2, hdev, hmin⟩
        refine ⟨by omega, by omega, hdev, ?_⟩
        intro s hs1 hs2
        rcases eq_or_lt_of_le hs1 with rfl | hs1b
        · exact not_lt.mp hd
        · exact hmin s (by omega) hs2
      · rintro ⟨h1, h2, hdev, hmin⟩
        have hne : t0 ≠ b := by
          rintro rfl
          exact absurd hdev hd
        exact ⟨by omega, by omega, hdev, fun s hs1 hs2 => hmin s (by omega) hs2⟩

theorem marginalScan_none_iff (profit : ℤ → ℚ) (last fd : ℚ) (t0 : ℤ) (n : ℕ)
    (hlast : last = profit (t0 - 1)) :
    (marginalScan profit last t0 n (some fd) none).2 = none ↔
      ∀ s, t0 ≤ s → s < t0 + n → |delta_profit (profit (s - 1)) (profit s) - fd| ≤ tol := by
  induction n generalizing last t0 with
  | zero =>
    subst hlast
    simp only [marginalScan]
    constructor
    · intro _ s hs1 hs2
      exact absurd hs2 (by omega)
    · intro _
      trivial
  | succ n ih =>
    subst hlast
    simp only [marginalScan]
    by_cases hd : tol < |delta_profit (profit (t0 - 1)) (profit t0) - fd|
    · rw [if_pos hd, marginalScan_bp_some]
      constructor
      · intro h
        exact absurd h (by simp)
      · intro h
        exact absurd hd (not_lt.mpr (h t0 (le_refl _) (by omega)))
    · rw [if_neg hd]
      rw [ih (profit t0) (t0 + 1) (by rw [show t0 + 1 - 1 = t0 from by omega])]
      constructor
      · intro h s hs1 hs2
        rcases eq_or_lt_of_le hs1 with rfl | hs1b
        · exact not_lt.mp hd
        · exact h s (by omega) (by omega)
      · intro h s hs1 hs2
        exact h s (by omega) (by omega)

theorem marginalScan_step_none (profit : ℤ → ℚ) (last : ℚ) (p : ℤ) (n : ℕ)
    (bp : Option ℤ) :
    marginalScan profit last p (n + 1) none bp =
      marginalScan profit (profit p) (p + 1) n
        (some (delta_profit last (profit p))) bp := rfl

theorem q1_more_pumps_step (solver : Oracle) :
    q1_more_pumps solver 220 =
      marginalScan (pumpProfit solver) (pumpProfit solver 201) 202 19
        (some (pumpDelta solver 201)) none := by
  have h2 : delta_profit ((solve_hot_tubs solver baselineRes).profit) (pumpProfit solver 201)
      = pumpDelta solver 201 := by
    rw [← pumpProfit_base, pumpDelta]
    norm_num
  show marginalScan (pumpProfit solver) ((solve_hot_tubs solver baselineRes).profit) 201
      ((220 : ℤ) - 200).toNat none none = _
  rw [show ((220 : ℤ) - 200).toNat = 20 from rfl, show (20 : ℕ) = 19 + 1 from rfl,
    marginalScan_step_none]
  rw [h2, show (201 : ℤ) + 1 = 202 from rfl]

theorem q2_more_labor_step (solver : Oracle) :
    q2_more_labor solver 1800 =
      marginalScan (laborProfit solver) (laborProfit solver 1567) 1568 233
        (some (laborDelta solver 1567)) none := by
  have h2 : delta_profit ((solve_hot_tubs solver baselineRes).profit) (laborProfit solver 1567)
      = laborDelta solver 1567 := by
    rw [← laborProfit_base, laborDelta]
    norm_num
  show marginalScan (laborProfit solver) ((solve_hot_tubs solver baselineRes).profit) 1567
      ((1800 : ℤ) - 1566).toNat none none = _
  rw [show ((1800 : ℤ) - 1566).toNat = 234 from rfl, show (234 : ℕ) = 233 + 1 from rfl,
    marginalScan_step_none]
  rw [h2, show (1567 : ℤ) + 1 = 1568 from rfl]

/-- C7: q3_more_tubing is a first-change scan: it reports the first tubing
value in baseline+1 .. baseline+increment whose rounded profit delta from
the previous solve exceeds 1e-6 in absolute value (stopping there), and
reports non-binding (`none`) exactly when no value in range deviates; its
detection compares each delta only against zero, never against a first-delta
baseline region. -/
theorem c7_first_change_scan (solver : Oracle) (n : ℕ) (t2 : ℤ) :
    (q3_more_tubing solver (n : ℤ) = some t2 ↔
      2881 ≤ t2 ∧ t2 ≤ 2880 + (n : ℤ) ∧ tol < |tubingDelta solver t2| ∧
        ∀ s, 2881 ≤ s → s < t2 → |tubingDelta solver s| ≤ tol) ∧
    (q3_more_tubing solver (n : ℤ) = none ↔
      ∀ s, 2881 ≤ s → s ≤ 2880 + (n : ℤ) → |tubingDelta solver s| ≤ tol) := by
  have hbase : (solve_hot_tubs solver baselineRes).profit = tubingProfit solver (2881 - 1) := by
    rw [← tubingProfit_base]
    norm_num
  have htn : ((n : ℤ)).toNat = n := by omega
  constructor
  · rw [q3_more_tubing_def, htn, hbase,
      firstChangeScan_eq_some_iff (tubingProfit solver) _ 2881 n t2 rfl]
    constructor
    · rintro ⟨h1, h2, h3, h4⟩
      exact ⟨h1, by omega, h3, fun s a b => h4 s a b⟩
    · rintro ⟨h1, h2, h3, h4⟩
      exact ⟨h1, by omega, h3, fun s a b => h4 s a b⟩
  · rw [q3_more_tubing_def, htn, hbase,
      firstChangeScan_eq_none_iff (tubingProfit solver) _ 2881 n rfl]
    constructor
    · intro h s a b
      exact h s a (by omega)
    · intro h s a b
      exact h s a (by omega)

/-- C3 counterexample: with a solver whose exact profit rises by 0.004 at
2881 feet of tubing, the raw profit delta at 2881 deviates from 0 by more
than 1e-6, yet q3_more_tubing detects no change (the comparison is made on
the delta rounded to two decimals by delta_profit, and round(0.004, 2) = 0). -/
theorem c3_counterexample :
    tol < |tubingProfit cexTubing 2881 - tubingProfit cexTubing 2880| ∧
      q3_more_tubing cexTubing 50 = none := by decide

/-- C3 amended: in q1_more_pumps, q2_more_labor and q3_more_tubing the
profit-delta comparisons use the absolute tolerance 1e-6 on the deltas as
rounded to two decimal places by delta_profit: a deviation of the rounded
delta from the (rounded) reference value of magnitude greater than 1e-6 is
detected, and only such deviations are detected. -/
theorem c3_rounded_tolerance (solver : Oracle) :
    ((q1_more_pumps solver 220).2 = none ↔
      ∀ p, 202 ≤ p → p ≤ 220 → |pumpDelta solver p - pumpDelta solver 201| ≤ tol) ∧
    ((q2_more_labor solver 1800).2 = none ↔
      ∀ h2, 1568 ≤ h2 → h2 ≤ 1800 → |laborDelta solver h2 - laborDelta solver 1567| ≤ tol) ∧
    (q3_more_tubing solver 50 = none ↔
      ∀ t, 2881 ≤ t → t ≤ 2930 → |tubingDelta solver t| ≤ tol) := by
  refine ⟨?_, ?_, ?_⟩
  · rw [q1_more_pumps_step,
      marginalScan_none_iff (pumpProfit solver) (pumpProfit solver 201)
        (pumpDelta solver 201) 202 19 (by norm_num)]
    constructor
    · intro h p a b
      exact h p a (by omega)
    · intro h s a b
      exact h s a (by omega)
  · rw [q2_more_labor_step,
      marginalScan_none_iff (laborProfit solver) (laborProfit solver 1567)
        (laborDelta solver 1567) 1568 233 (by norm_num)]
    constructor
    · intro h p a b
      exact h p a (by omega)
    · intro h s a b
      exact h s a (by omega)
  · have hbase : (solve_hot_tubs solver baselineRes).profit
        = tubingProfit solver (2881 - 1) := by
      rw [← tubingProfit_base]
      norm_num
    rw [q3_more_tubing_def, show ((50 : ℤ)).toNat = 50 from rfl, hbase,
      firstChangeScan_eq_none_iff (tubingProfit solver) _ 2881 50 rfl]
    constructor
    · intro h t a b
      exact h t a (by omega)
    · intro h s a b
      exact h s a (by omega)

/-! ### The solver wrapper: claims C4, C5, C6, C8 -/

/-- C4 (code behaviour at the failing input): when the external solver
returns no variable values and no objective value at all, solve_hot_tubs
does not surface a failure; it returns the zero-quantity, zero-profit plan
with full slack.  The claim (and the spec) require a distinct failure to be
surfaced instead; the Solution type has no failure channel at all. -/
theorem c4_solver_failure_zeroed :
    solve_hot_tubs failOracle baselineRes =
      ⟨0, 0, 0, ⟨0, 0, 0⟩, ⟨200, 1566, 2880⟩⟩ := by decide

/-- C5: for every envelope and every solver result, the returned Solution
satisfies used[resource] + slack[resource] == envelope[resource] within
1e-6, for each of the three resources. -/
theorem c5_consumption_slack_identity (solver : Oracle) (res : Resources) :
    |(solve_hot_tubs solver res).used.pumps + (solve_hot_tubs solver res).slack.pumps
        - res.pumps| ≤ tol ∧
      |(solve_hot_tubs solver res).used.labor + (solve_hot_tubs solver res).slack.labor
        - res.labor_hours| ≤ tol ∧
      |(solve_hot_tubs solver res).used.tubing + (solve_hot_tubs solver res).slack.tubing
        - res.tubing_feet| ≤ tol := by
  have htol : (0 : ℚ) ≤ tol := by norm_num [tol]
  refine ⟨?_, ?_, ?_⟩ <;>
  · simp only [solve_hot_tubs]
    rw [abs_le]
    constructor <;> linarith

/-- C6: when the external solver returns an exact optimum of the stated LP
for the baseline envelope (pumps=200, labor_hours=1566, tubing_feet=2880),
solve_hot_tubs returns x_aqua within 0.5 of 122, x_hydro within 0.5 of 78
and profit within 0.5 of 66100. -/
theorem c6_baseline_optimum (solver : Oracle) (a b : ℚ)
    (hout : solver baselineRes = ⟨some a, some b, some (objectiveFn a b)⟩)
    (hopt : IsOptimal baselineRes a b) :
    |(solve_hot_tubs solver baselineRes).x_aqua - 122| ≤ 1 / 2 ∧
      |(solve_hot_tubs solver baselineRes).x_hydro - 78| ≤ 1 / 2 ∧
      |(solve_hot_tubs solver baselineRes).profit - 66100| ≤ 1 / 2 := by
  obtain ⟨⟨ha0, hb0, hp, hl, ht⟩, hub⟩ := hopt
  have hp2 : a + b ≤ 200 := hp
  have hl2 : 9 * a + 6 * b ≤ 1566 := hl
  have hfeas : Feasible baselineRes 122 78 := by
    refine ⟨by norm_num, by norm_num, ?_, ?_, ?_⟩
    · show (122 : ℚ) + 78 ≤ 200
      norm_num
    · show 9 * (122 : ℚ) + 6 * 78 ≤ 1566
      norm_num
    · show 12 * (122 : ℚ) + 16 * 78 ≤ 2880
      norm_num
  have h1 : (66100 : ℚ) ≤ objectiveFn a b := by
    have h2 := hub 122 78 hfeas
    have h3 : objectiveFn 122 78 = 66100 := by norm_num [objectiveFn]
    linarith
  have h4 : objectiveFn a b = 350 * a + 300 * b := rfl
  have ha : a = 122 := by linarith
  have hb : b = 78 := by linarith
  subst ha
  subst hb
  simp only [solve_hot_tubs, hout]
  refine ⟨?_, ?_, ?_⟩
  · norm_num
  · norm_num
  · show |objectiveFn 122 78 - 66100| ≤ 1 / 2
    norm_num [objectiveFn]

/-- Witness for C6 at a solver returning the exact baseline optimum. -/
theorem c6_baseline_optimum_w :
    |(solve_hot_tubs optOracle baselineRes).x_aqua - 122| ≤ 1 / 2 ∧
      |(solve_hot_tubs optOracle baselineRes).x_hydro - 78| ≤ 1 / 2 ∧
      |(solve_hot_tubs optOracle baselineRes).profit - 66100| ≤ 1 / 2 :=
  c6_baseline_optimum optOracle 122 78 (by decide)
    ⟨⟨by norm_num, by norm_num, by norm_num [baselineRes], by norm_num [baselineRes],
      by norm_num [baselineRes]⟩,
      fun y1 y2 hy => by
        obtain ⟨hy1, hy2, hy3, hy4, hy5⟩ := hy
        have hy3b : y1 + y2 ≤ 200 := hy3
        have hy4b : 9 * y1 + 6 * y2 ≤ 1566 := hy4
        show 350 * y1 + 300 * y2 ≤ 350 * 122 + 300 * 78
        linarith⟩

/-- C8: for envelopes differing by an increase in exactly one resource with
the other two held fixed, the profit reported by solve_hot_tubs does not
decrease, provided the solver returns exact optima for both envelopes. -/
theorem c8_profit_monotonicity (solver : Oracle) (e e2 : Resources)
    (a b a2 b2 : ℚ)
    (hdiff :
      (e.pumps < e2.pumps ∧ e.labor_hours = e2.labor_hours ∧
        e.tubing_feet = e2.tubing_feet) ∨
      (e.pumps = e2.pumps ∧ e.labor_hours < e2.labor_hours ∧
        e.tubing_feet = e2.tubing_feet) ∨
      (e.pumps = e2.pumps ∧ e.labor_hours = e2.labor_hours ∧
        e.tubing_feet < e2.tubing_feet))
    (hout : solver e = ⟨some a, some b, some (objectiveFn a b)⟩)
    (hopt : IsOptimal e a b)
    (hout2 : solver e2 = ⟨some a2, some b2, some (objectiveFn a2 b2)⟩)
    (hopt2 : IsOptimal e2 a2 b2) :
    (solve_hot_tubs solver e).profit ≤ (solve_hot_tubs solver e2).profit := by
  have hfeas : Feasible e2 a b := by
    obtain ⟨h0a, h0b, hp, hl, ht⟩ := hopt.1
    rcases hdiff with ⟨h1, h2, h3⟩ | ⟨h1, h2, h3⟩ | ⟨h1, h2, h3⟩ <;>
      exact ⟨h0a, h0b, by linarith, by linarith, by linarith⟩
  have hle := hopt2.2 a b hfeas
  simp only [solve_hot_tubs, hout, hout2]
  exact hle

/-- Witness for C8: one more pump (201 vs 200) with exact optima
(122, 78, 66100) and (120, 81, 66300). -/
theorem c8_profit_monotonicity_w :
    (solve_hot_tubs monoOracle baselineRes).profit ≤
      (solve_hot_tubs monoOracle ⟨201, 1566, 2880⟩).profit :=
  c8_profit_monotonicity monoOracle baselineRes ⟨201, 1566, 2880⟩ 122 78 120 81
    (Or.inl ⟨by norm_num [baselineRes], by norm_num [baselineRes],
      by norm_num [baselineRes]⟩)
    (by decide)
    ⟨⟨by norm_num, by norm_num, by norm_num [baselineRes], by norm_num [baselineRes],
      by norm_num [baselineRes]⟩,
      fun y1 y2 hy => by
        obtain ⟨hy1, hy2, hy3, hy4, hy5⟩ := hy
        have hy3b : y1 + y2 ≤ 200 := hy3
        have hy4b : 9 * y1 + 6 * y2 ≤ 1566 := hy4
        show 350 * y1 + 300 * y2 ≤ 350 * 122 + 300 * 78
        linarith⟩
    (by decide)
    ⟨⟨by norm_num, by norm_num, by norm_num, by norm_num, by norm_num⟩,
      fun y1 y2 hy => by
        obtain ⟨hy1, hy2, hy3, hy4, hy5⟩ := hy
        have hy3b : y1 + y2 ≤ 201 := hy3
        have hy4b : 9 * y1 + 6 * y2 ≤ 1566 := hy4
        show 350 * y1 + 300 * y2 ≤ 350 * 120 + 300 * 81
        linarith⟩

/-! ### Comparing the duplicated pump scans (claim C2) -/

theorem pumpProfit_eq (solver : Oracle) (p : ℤ) :
    (solve_hot_tubs solver ⟨(p : ℚ), ((1566 : ℤ) : ℚ), ((2880 : ℤ) : ℚ)⟩).profit
      = pumpProfit solver p := by
  have h : (⟨(p : ℚ), ((1566 : ℤ) : ℚ), ((2880 : ℤ) : ℚ)⟩ : Resources)
      = ⟨(p : ℚ), baselineRes.labor_hours, baselineRes.tubing_feet⟩ := by
    show _ = (⟨(p : ℚ), 1566, 2880⟩ : Resources)
    norm_num
  rw [h]
  rfl

theorem curve_profits_get? (solver : Oracle) (i : ℕ) (hi : i < 21) :
    ((rangeIncl 200 220).map (fun p : ℤ =>
        (solve_hot_tubs solver ⟨(p : ℚ), ((1566 : ℤ) : ℚ), ((2880 : ℤ) : ℚ)⟩).profit)).get? i
      = some (pumpProfit solver (200 + (i : ℤ))) := by
  rw [List.get?_map, rangeIncl_get? 200 220 i (by omega)]
  simp only [Option.map_some']
  rw [pumpProfit_eq]

theorem curve_deltas_len (solver : Oracle) :
    (consecDeltas ((rangeIncl 200 220).map (fun p : ℤ =>
        (solve_hot_tubs solver ⟨(p : ℚ), ((1566 : ℤ) : ℚ), ((2880 : ℤ) : ℚ)⟩).profit))).length
      = 20 := by
  rw [consecDeltas_length, List.length_map, rangeIncl_length]
  decide

theorem curve_deltas_getD (solver : Oracle) (i : ℕ) (hi : i < 20) :
    (consecDeltas ((rangeIncl 200 220).map (fun p : ℤ =>
        (solve_hot_tubs solver ⟨(p : ℚ), ((1566 : ℤ) : ℚ), ((2880 : ℤ) : ℚ)⟩).profit))).getD i 0
      = rawPumpDelta solver (201 + (i : ℤ)) := by
  have hlen : ((rangeIncl 200 220).map (fun p : ℤ =>
      (solve_hot_tubs solver ⟨(p : ℚ), ((1566 : ℤ) : ℚ), ((2880 : ℤ) : ℚ)⟩).profit)).length
      = 21 := by
    rw [List.length_map, rangeIncl_length]
    decide
  rw [List.getD_eq_get?, consecDeltas_get? _ i (by omega), Option.getD_some,
    List.getD_eq_get?, List.getD_eq_get?, curve_profits_get? solver (i + 1) (by omega),
    curve_profits_get? solver i (by omega), Option.getD_some, Option.getD_some]
  have e1 : (200 : ℤ) + ((i + 1 : ℕ) : ℤ) = 201 + (i : ℤ) := by push_cast; ring
  have e2 : (200 : ℤ) + (i : ℤ) = 201 + (i : ℤ) - 1 := by ring
  rw [e1, e2]
  rfl

/-- C2 counterexample: the same solver profit outputs for every envelope in
the swept range (profits 0, 1, 4, 7, ... over pumps 200..220, deltas 1 then
3), yet q1_more_pumps reports breakpoint 202 while sensitivity_curve_pumps
reports breakpoint 201: the two duplicated scans do not identify the same
breakpoint parameter value. -/
theorem c2_counterexample :
    (q1_more_pumps cexPumps 220).2 = some 202 ∧
      (sensitivity_curve_pumps cexPumps 200 220 1566 2880).map
        CurveResult.breakpoint_at = some 201 ∧ (202 : ℤ) ≠ 201 := by decide

/-- C2 amended: the pump sweep-and-breakpoint logic is duplicated between
sensitivity.py and run_analysis.py, but with an off-by-one difference in the
reported breakpoint and a different no-deviation convention.  Given identical
solver profit outputs over pumps 200..220 (labor and tubing at baseline)
whose consecutive raw deltas are exact at two decimal places (so the
delta_profit rounding in q1_more_pumps is the identity on them), either
neither scan finds a deviation and q1_more_pumps reports no breakpoint while
sensitivity_curve_pumps reports the last tested value 220, or q1_more_pumps
reports breakpoint b and sensitivity_curve_pumps reports b - 1. -/
theorem c2_offset_by_one (solver : Oracle)
    (hr : ∀ i : ℕ, i < 20 →
      round2 (rawPumpDelta solver (201 + (i : ℤ)))
        = rawPumpDelta solver (201 + (i : ℤ))) :
    ((q1_more_pumps solver 220).2 = none ∧
      (sensitivity_curve_pumps solver 200 220 1566 2880).map
        CurveResult.breakpoint_at = some 220) ∨
    (∃ b, (q1_more_pumps solver 220).2 = some b ∧
      (sensitivity_curve_pumps solver 200 220 1566 2880).map
        CurveResult.breakpoint_at = some (b - 1)) := by
  have hr2 : ∀ p : ℤ, 201 ≤ p → p ≤ 220 →
      pumpDelta solver p = rawPumpDelta solver p := by
    intro p h1 h2
    have hi := hr (p - 201).toNat (by omega)
    have hcast : (201 : ℤ) + (((p - 201).toNat : ℕ) : ℤ) = p := by omega
    rw [hcast] at hi
    exact hi
  have hxsne : rangeIncl 200 220 ≠ [] := by
    rw [ne_eq, rangeIncl_eq_nil_iff]
    norm_num
  obtain ⟨r, hrr⟩ := curveFinish_isSome (rangeIncl 200 220)
    ((rangeIncl 200 220).map (fun p : ℤ =>
      (solve_hot_tubs solver ⟨(p : ℚ), ((1566 : ℤ) : ℚ), ((2880 : ℤ) : ℚ)⟩).profit))
    (by rw [List.length_map]) hxsne
  obtain ⟨_, _, _, _, hbp⟩ := curveFinish_inv _ _ _ hrr
  cases hcase : (q1_more_pumps solver 220).2 with
  | none =>
    left
    refine ⟨rfl, ?_⟩
    rw [q1_more_pumps_step] at hcase
    have hnone := (marginalScan_none_iff (pumpProfit solver) (pumpProfit solver 201)
      (pumpDelta solver 201) 202 19 (by norm_num)).mp hcase
    have hfdnone : firstDevIdx (consecDeltas ((rangeIncl 200 220).map (fun p : ℤ =>
        (solve_hot_tubs solver ⟨(p : ℚ), ((1566 : ℤ) : ℚ), ((2880 : ℤ) : ℚ)⟩).profit)))
        = none := by
      rw [firstDevIdx_eq_none_iff]
      intro j h1 hj
      rw [curve_deltas_len solver] at hj
      simp only [devAt]
      rw [curve_deltas_getD solver j (by omega), curve_deltas_getD solver 0 (by norm_num)]
      have hc0 : (201 : ℤ) + ((0 : ℕ) : ℤ) = 201 := by norm_num
      rw [hc0]
      refine not_lt.mpr ?_
      have hs := hnone (201 + (j : ℤ)) (by omega) (by omega)
      have ha := hr2 (201 + (j : ℤ)) (by omega) (by omega)
      have hb3 := hr2 201 (by norm_num) (by norm_num)
      rw [← ha, ← hb3]
      exact hs
    rcases hbp with ⟨i2, hfd2, _⟩ | ⟨_, hlast⟩
    · rw [hfdnone] at hfd2
      exact Option.noConfusion hfd2
    · rw [rangeIncl_getLast? 200 220 (by norm_num)] at hlast
      have hbpv : r.breakpoint_at = 220 := (Option.some_inj.mp hlast).symm
      rw [sensitivity_curve_pumps_def, hrr]
      simp only [Option.map_some']
      rw [hbpv]
  | some b =>
    right
    refine ⟨b, rfl, ?_⟩
    rw [q1_more_pumps_step] at hcase
    obtain ⟨hb1, hb2, hbdev, hbmin⟩ := (marginalScan_some_iff (pumpProfit solver)
      (pumpProfit solver 201) (pumpDelta solver 201) 202 19 b (by norm_num)).mp hcase
    obtain ⟨i, hi_eq, hi1, hi2⟩ : ∃ i : ℕ, (i : ℤ) = b - 201 ∧ 1 ≤ i ∧ i < 20 :=
      ⟨(b - 201).toNat, by omega, by omega, by omega⟩
    have hfdsome : firstDevIdx (consecDeltas ((rangeIncl 200 220).map (fun p : ℤ =>
        (solve_hot_tubs solver ⟨(p : ℚ), ((1566 : ℤ) : ℚ), ((2880 : ℤ) : ℚ)⟩).profit)))
        = some i := by
      rw [firstDevIdx_eq_some_iff]
      refine ⟨hi1, ?_, ?_, ?_⟩
      · rw [curve_deltas_len solver]
        omega
      · simp only [devAt]
        rw [curve_deltas_getD solver i (by omega), curve_deltas_getD solver 0 (by norm_num)]
        have hc0 : (201 : ℤ) + ((0 : ℕ) : ℤ) = 201 := by norm_num
        have hcb : (201 : ℤ) + (i : ℤ) = b := by omega
        rw [hc0, hcb]
        have ha := hr2 b (by omega) (by omega)
        have hb3 := hr2 201 (by norm_num) (by norm_num)
        rw [← ha, ← hb3]
        exact hbdev
      · intro j hj1 hj2
        simp only [devAt]
        rw [curve_deltas_getD solver j (by omega), curve_deltas_getD solver 0 (by norm_num)]
        have hc0 : (201 : ℤ) + ((0 : ℕ) : ℤ) = 201 := by norm_num
        rw [hc0]
        refine not_lt.mpr ?_
        have hs := hbmin (201 + (j : ℤ)) (by omega) (by omega)
        have ha := hr2 (201 + (j : ℤ)) (by omega) (by omega)
        have hb3 := hr2 201 (by norm_num) (by norm_num)
        rw [← ha, ← hb3]
        exact hs
    rcases hbp with ⟨i2, hfd2, hget2⟩ | ⟨hfd2, _⟩
    · rw [hfdsome] at hfd2
      have hii : i = i2 := Option.some_inj.mp hfd2
      subst hii
      rw [rangeIncl_get? 200 220 i (by omega)] at hget2
      have hbpv : r.breakpoint_at = 200 + (i : ℤ) := (Option.some_inj.mp hget2).symm
      rw [sensitivity_curve_pumps_def, hrr]
      simp only [Option.map_some']
      rw [hbpv]
      congr 1
      omega
    · rw [hfdsome] at hfd2
      exact Option.noConfusion hfd2

/-- Witness for the amended C2 at the counterexample profit curve. -/
theorem c2_offset_by_one_w :
    ((q1_more_pumps cexPumps 220).2 = none ∧
      (sensitivity_curve_pumps cexPumps 200 220 1566 2880).map
        CurveResult.breakpoint_at = some 220) ∨
    (∃ b, (q1_more_pumps cexPumps 220).2 = some b ∧
      (sensitivity_curve_pumps cexPumps 200 220 1566 2880).map
        CurveResult.breakpoint_at = some (b - 1)) :=
  c2_offset_by_one cexPumps (by decide)

end BlueRidge
